import Mathlib

/-!
Verification of the markdown-it-gladest math plugin core
(`markdown-it-gladest/src/index.cts`) against its natural-language
specification.  The TypeScript source is shallowly embedded: strings are
`List Char`, JavaScript string methods (`slice`, `trim`, `indexOf`,
`startsWith`, `endsWith`, `replace`) are modelled as executable Lean
functions, the mutable markdown-it states are passed explicitly, thrown
exceptions are `Except`, and the opaque native render capability is an
explicit input (`NativeResult`).
-/

namespace Gladst

/-- JavaScript strings are modelled as lists of characters. -/
abbrev Str := List Char

/-- Whitespace as recognised by JavaScript `String.prototype.trim`
(ASCII whitespace and line terminators). -/
def isWS (c : Char) : Bool :=
  c = ' ' || c = '\t' || c = '\n' || c = '\r' || c = '\x0b' || c = '\x0c'

/-- JavaScript `s.trim()`: strip leading and trailing whitespace. -/
def jsTrim (s : Str) : Str :=
  ((s.dropWhile isWS).reverse.dropWhile isWS).reverse

/-- JavaScript `s.slice(a, b)` for non-negative indices. -/
def jsSlice (s : Str) (a b : Nat) : Str :=
  (s.take b).drop a

/-- JavaScript `s.charCodeAt(i)`: `some c` in range, `none` for the
out-of-range `NaN` case. -/
def charAt (s : Str) (i : Nat) : Option Char :=
  s[i]?

/-- The character constants used by the scanner. -/
def dollar : Char := '$'

def bslash : Char := '\\'

def nlChar : Char := '\n'

/-- The two-character block marker `$$`. -/
def dd : Str := [dollar, dollar]

/-- Auxiliary scan of JavaScript `s.indexOf(pat, k)`: first match
position at or after the accumulated index `k`. -/
def findSubAux (pat : Str) : Str → Nat → Option Nat
  | [], k => if pat.isPrefixOf ([] : Str) then some k else none
  | c :: rest, k =>
    if pat.isPrefixOf (c :: rest) then some k else findSubAux pat rest (k + 1)

/-- JavaScript `s.indexOf(pat, i)`; `none` models `-1`. -/
def indexOfFrom (s pat : Str) (i : Nat) : Option Nat :=
  findSubAux pat (s.drop i) i

/-- A markdown-it token as produced by the two scanner rules.  The
fields mirror `state.push` plus the assignments made by the rules:
`ttype` is the token type, `content` the formula text, `markup` the
delimiter, `blockB` the `token.block` flag and `tmap` the `token.map`
line interval. -/
structure MathToken where
  ttype : Str
  content : Str
  markup : Str
  blockB : Bool
  tmap : Option (Nat × Nat)
deriving DecidableEq, Repr

/-- Token type of inline math tokens. -/
def inlineType : Str := ("gladst_inline_math").toList

/-- Token type of block math tokens. -/
def blockType : Str := ("gladst_block_math").toList

/-- The part of markdown-it `StateInline` read or written by
`gladstInlineRule`. -/
structure InlineState where
  src : Str
  pos : Nat
  posMax : Nat
  tokens : List MathToken
deriving DecidableEq, Repr

/-- The scanning `while` loop of `gladstInlineRule` (lines 224-257 of
`index.cts`), run on the window `src[pos+1 .. posMax)`; `k` is the
offset of the window head from `pos + 1`.  Returns the offset of the
closing `$` when one is found:
a `$` followed by another `$` skips both, a backslash skips itself and
the escaped character (falling off the window ends the loop), a newline
aborts, anything else advances by one. -/
def scanClose : Str → Nat → Option Nat
  | [], _ => none
  | c :: rest, k =>
    if c = dollar then
      match rest with
      | c2 :: rest2 => if c2 = dollar then scanClose rest2 (k + 2) else some k
      | [] => some k
    else if c = bslash then
      match rest with
      | [] => none
      | _ :: rest2 => scanClose rest2 (k + 2)
    else if c = nlChar then none
    else scanClose rest (k + 1)

/-- The inline rule `gladstInlineRule` (lines 203-279 of `index.cts`).
Returns the rule's boolean verdict together with the state after the
call (unchanged on failure and in silent mode, mirroring that the
JavaScript code only mutates `state` when committing). -/
def gladstInlineRule (st : InlineState) (silent : Bool) : Bool × InlineState :=
  let pos := st.pos
  if charAt st.src pos ≠ some dollar then (false, st)
  else if 0 < pos ∧ charAt st.src (pos - 1) = some bslash then (false, st)
  else if charAt st.src (pos + 1) = some dollar then (false, st)
  else
    let window := (st.src.take st.posMax).drop (pos + 1)
    match scanClose window 0 with
    | none => (false, st)
    | some k =>
      if silent then (true, st)
      else
        let endPos := pos + 1 + k
        let content := jsTrim (jsSlice st.src (pos + 1) endPos)
        if content = [] then (false, st)
        else
          (true,
            { st with
              tokens := st.tokens ++
                [{ ttype := inlineType, content := content,
                   markup := [dollar], blockB := false, tmap := none }],
              pos := endPos + 1 })

/-- JavaScript `lines.join("\n")`. -/
def joinNL : List Str → Str
  | [] => []
  | [l] => l
  | l :: ls => l ++ nlChar :: joinNL ls

/-- The part of markdown-it `StateBlock` read or written by
`gladstBlockRule`.  `bMarks`/`eMarks` are the begin/end offsets of each
line in `src`, `tShift` the first-nonspace shift of each line. -/
structure BlockState where
  src : Str
  bMarks : List Nat
  eMarks : List Nat
  tShift : List Nat
  line : Nat
  tokens : List MathToken
deriving DecidableEq, Repr

/-- The multi-line `while` loop of `gladstBlockRule` (lines 153-196 of
`index.cts`).  `fuel` is `endLine - nextLine`, so `fuel = 0` exactly
when `nextLine < endLine` fails.  Returns `some (content, termLine)`
when a terminating line is found (`content` is the joined and trimmed
accumulation, `termLine` the line holding the terminator), `none` when
the lines run out. -/
def blockScanLines (st : BlockState) (endLine : Nat) :
    Nat → Nat → List Str → Option (Str × Nat)
  | 0, _, _ => none
  | fuel + 1, nextLine, contentLines =>
    if nextLine < endLine then
      let lineStart := st.bMarks.getD nextLine 0 + st.tShift.getD nextLine 0
      let lineMax := st.eMarks.getD nextLine 0
      let lineText := jsTrim (jsSlice st.src lineStart lineMax)
      if lineText = dd then
        some (jsTrim (joinNL contentLines), nextLine)
      else if dd.isSuffixOf lineText then
        let contentLines' :=
          contentLines ++ [jsTrim (jsSlice lineText 0 (lineText.length - 2))]
        some (jsTrim (joinNL contentLines'), nextLine)
      else
        blockScanLines st endLine fuel (nextLine + 1)
          (contentLines ++
            [jsSlice st.src (st.bMarks.getD nextLine 0) (st.eMarks.getD nextLine 0)])
    else none

/-- The block rule `gladstBlockRule` (lines 98-200 of `index.cts`).
Returns the rule's boolean verdict and the state after the call.  The
fast path fires when the JavaScript test
`firstLineEndMarkerPos !== -1 && firstLineEndMarkerPos <= max - 2`
holds (the subtraction is on JavaScript numbers, hence `Int` here);
otherwise the multi-line loop runs. -/
def gladstBlockRule (st : BlockState) (startLine endLine : Nat) (silent : Bool) :
    Bool × BlockState :=
  let pos := st.bMarks.getD startLine 0 + st.tShift.getD startLine 0
  let emax := st.eMarks.getD startLine 0
  if ¬ dd.isPrefixOf (st.src.drop pos) then (false, st)
  else
    let fastIdx :=
      match indexOfFrom st.src dd (pos + 2) with
      | some i => if (i : Int) ≤ (emax : Int) - 2 then some i else none
      | none => none
    match fastIdx with
    | some i =>
      if silent then (true, st)
      else
        let content := jsTrim (jsSlice st.src (pos + 2) i)
        (true,
          { st with
            tokens := st.tokens ++
              [{ ttype := blockType, content := content, markup := dd,
                 blockB := true, tmap := some (startLine, startLine + 1) }],
            line := startLine + 1 })
    | none =>
      let contentLines0 := [jsTrim (jsSlice st.src (pos + 2) emax)]
      match blockScanLines st endLine (endLine - (startLine + 1))
          (startLine + 1) contentLines0 with
      | none => (false, st)
      | some (content, termLine) =>
        if silent then (true, st)
        else
          (true,
            { st with
              tokens := st.tokens ++
                [{ ttype := blockType, content := content, markup := dd,
                   blockB := true, tmap := some (startLine, termLine + 1) }],
              line := termLine + 1 })

/-- Begin/end offsets of each line inside the newline-joined document,
starting at offset `off`. -/
def lineOffsets : Nat → List Str → List (Nat × Nat)
  | _, [] => []
  | off, l :: ls => (off, off + l.length) :: lineOffsets (off + l.length + 1) ls

/-- A well-formed markdown-it block state for a document given as a
list of unindented lines: `src` is the newline-join, `bMarks`/`eMarks`
hold each line's begin/end offsets and every `tShift` is zero. -/
def mkBlockState (lines : List Str) : BlockState :=
  { src := joinNL lines
  , bMarks := (lineOffsets 0 lines).map Prod.fst
  , eMarks := (lineOffsets 0 lines).map Prod.snd
  , tShift := List.replicate lines.length 0
  , line := 0
  , tokens := [] }

/-- A well-formed inline state for scanning a whole source string from
position 0 with empty token list. -/
def mkInlineState (src : Str) : InlineState :=
  { src := src, pos := 0, posMax := src.length, tokens := [] }

/-- The `FontSource` interface: optional `system` name and optional
`file` path. -/
structure FontSource where
  system : Option Str := none
  file : Option Str := none
deriving DecidableEq, Repr

/-- The `FontConfig` interface: optional body and math font slots. -/
structure FontConfig where
  bodyFont : Option FontSource := none
  mathFont : Option FontSource := none
deriving DecidableEq, Repr

/-- One normalized font slot, `{ type: "system" | "file", value }`. -/
inductive RustFontSlot where
  | sys (value : Str)
  | file (value : Str)
deriving DecidableEq, Repr

/-- The normalized `InternalRustOptions["fonts"]` object. -/
structure RustFonts where
  bodyFont : Option RustFontSlot := none
  mathFont : Option RustFontSlot := none
deriving DecidableEq, Repr

/-- JavaScript truthiness of an optional string property: present and
non-empty. -/
def truthyS (s : Option Str) : Bool :=
  match s with
  | some v => v ≠ []
  | none => false

/-- Body-font conflict message thrown at line 294 of `index.cts`. -/
def bodyFontErr : Str := ("Cannot specify both system and file for body font").toList

/-- Math-font conflict message thrown at line 306 of `index.cts`. -/
def mathFontErr : Str := ("Cannot specify both system and file for math font").toList

/-- Processing of one font slot inside `normalizeFontConfig`
(lines 292-313 of `index.cts`): throw on two truthy sources, otherwise
pick the system name, else the file path, else nothing. -/
def normalizeFontSlot (s : Option FontSource) (errMsg : Str) :
    Except Str (Option RustFontSlot) :=
  match s with
  | none => .ok none
  | some f =>
    if truthyS f.system && truthyS f.file then .error errMsg
    else if truthyS f.system then .ok (some (.sys (f.system.getD [])))
    else if truthyS f.file then .ok (some (.file (f.file.getD [])))
    else .ok none

/-- `normalizeFontConfig` (lines 284-316 of `index.cts`): `undefined`
input yields `undefined`; otherwise both slots are processed in order
(body first, so a body conflict throws before the math slot is looked
at) and an empty result object collapses to `undefined`. -/
def normalizeFontConfig : Option FontConfig → Except Str (Option RustFonts)
  | none => .ok none
  | some fonts =>
    match normalizeFontSlot fonts.bodyFont bodyFontErr with
    | .error m => .error m
    | .ok rb =>
      match normalizeFontSlot fonts.mathFont mathFontErr with
      | .error m => .error m
      | .ok rm =>
        .ok (if rb.isSome || rm.isSome then
              some { bodyFont := rb, mathFont := rm }
            else none)

/-- The user-supplied `ppi` value: a number, `null`, or absent (it also
stands for any non-number value, which the `typeof` test lumps with
these). -/
inductive JsPpi where
  | num (q : ℚ)
  | null
  | undefined
deriving DecidableEq, Repr

/-- The `ppi` expression of `gladstPlugin` (lines 322-323 of
`index.cts`): `typeof ppi === "number" && ppi > 0 ? ppi : 300`.  The
result is an `InternalRustOptions` `ppi : number | null` field, with
`none` standing for `null`; note the code never produces `none`. -/
def normalizePpi : JsPpi → Option ℚ
  | .num q => some (if 0 < q then q else 300)
  | .null => some 300
  | .undefined => some 300

/-- The `GladstPluginOptions` object (format, ppi, fonts). -/
structure GladstUserOptions where
  format : Option Str := none
  ppi : JsPpi := .undefined
  fonts : Option FontConfig := none
deriving DecidableEq, Repr

/-- The `InternalRustOptions` object sent to the native renderer. -/
structure InternalRustOptions where
  format : Str
  ppi : Option ℚ
  fonts : Option RustFonts
deriving DecidableEq, Repr

/-- Format string constant. -/
def pngFmt : Str := ("png").toList

/-- Format string constant. -/
def svgFmt : Str := ("svg").toList

/-- The options normalization performed by `gladstPlugin`
(lines 320-325 of `index.cts`): format defaults to `svg` unless the
user format is exactly `png`, `ppi` as in `normalizePpi` (absent
options give `undefined`), fonts via `normalizeFontConfig`; a font
conflict throws out of the plugin call. -/
def normalizeOptions (o : Option GladstUserOptions) :
    Except Str InternalRustOptions :=
  match normalizeFontConfig (match o with | some u => u.fonts | none => none) with
  | .error m => .error m
  | .ok f =>
    .ok { format := if (match o with | some u => u.format | none => none) = some pngFmt
                    then pngFmt else svgFmt
        , ppi := match o with
                 | some u => normalizePpi u.ppi
                 | none => some 300
        , fonts := f }

/-- Reading the `system`/`file` properties of a normalized font slot
`{ type, value }` in JavaScript yields `undefined` for both: the
normalized shape carries no `system` or `file` property. -/
def rustSlotAsFontSource (_ : RustFontSlot) : FontSource :=
  { system := none, file := none }

/-- A normalized fonts object read back as user font configuration
(dynamic property access, as in a second normalization pass). -/
def rustFontsAsFontConfig (r : RustFonts) : FontConfig :=
  { bodyFont := r.bodyFont.map rustSlotAsFontSource
  , mathFont := r.mathFont.map rustSlotAsFontSource }

/-- An `InternalRustOptions` value read back as user options (dynamic
property access): `format` is the stored string, `ppi` the stored
number or `null`, `fonts` the normalized fonts object reinterpreted. -/
def internalAsUser (i : InternalRustOptions) : GladstUserOptions :=
  { format := some i.format
  , ppi := match i.ppi with
           | some q => .num q
           | none => .null
  , fonts := i.fonts.map rustFontsAsFontConfig }

/-- A JavaScript exception value: an `Error` with its `message`, or any
non-`Error` thrown value. -/
inductive JsError where
  | errorMsg (msg : Str)
  | nonError
deriving DecidableEq, Repr

/-- Outcome of the native `renderLatex` call: a returned string or a
thrown exception. -/
inductive NativeResult where
  | returns (html : Str)
  | throws (e : JsError)
deriving DecidableEq, Repr

/-- JavaScript `s.replace(/c/g, r)` for a single-character pattern:
each occurrence of `c` is replaced by `r`, left to right. -/
def replAll (s : Str) (c : Char) (r : Str) : Str :=
  match s with
  | [] => []
  | x :: xs => (if x = c then r else [x]) ++ replAll xs c r

/-- Replacement text for `<`. -/
def ltEsc : Str := ("&lt;").toList

/-- Replacement text for `>`. -/
def gtEsc : Str := ("&gt;").toList

/-- Replacement text for `"`. -/
def quotEsc : Str := ("&quot;").toList

/-- `formula.replace(/</g, "&lt;").replace(/>/g, "&gt;")`. -/
def escLtGt (s : Str) : Str :=
  replAll (replAll s '<' ltEsc) '>' gtEsc

/-- `s.replace(/"/g, "&quot;")`. -/
def escQuot (s : Str) : Str :=
  replAll s '"' quotEsc

/-- The sanitized message computed in the catch branch (lines 375-378
of `index.cts`). -/
def sanitizeMsg : JsError → Str
  | .errorMsg m => escLtGt m
  | .nonError => ("Unknown render execution error").toList

/-- The Rust-error structural marker prefix checked at line 366. -/
def errMarkSpan : Str := ("<span class=\"gladst-error").toList

/-- The Rust-error structural marker prefix checked at line 367. -/
def errMarkDiv : Str := ("<div class=\"gladst-error").toList

/-- `renderFormula` (lines 343-388 of `index.cts`), with the native
call's behaviour supplied as `native`.  Falsy (empty) formula or
delimiter yields the internal-error fragment; a returned value is
passed through when it already carries the error marker, otherwise
wrapped; a thrown exception is caught and converted into an error
fragment with escaped formula and sanitized message in a `title`
attribute. -/
def renderFormula (formula delimiter : Str) (isBlock : Bool)
    (native : NativeResult) : Str :=
  if formula = [] || delimiter = [] then
    let tag := if isBlock then ("div").toList else ("span").toList
    let cls := if isBlock then ("block").toList else ("inline").toList
    ("<").toList ++ tag ++ (" class=\"gladst-error-").toList ++ cls ++
      ("\">Internal Plugin Error: Token invalid</").toList ++ tag ++ (">").toList
  else
    match native with
    | .returns htmlOutput =>
      if errMarkSpan.isPrefixOf htmlOutput || errMarkDiv.isPrefixOf htmlOutput then
        htmlOutput
      else
        let wrapperTag := if isBlock then ("div").toList else ("span").toList
        let wrapperClass :=
          ("gladst-").toList ++ (if isBlock then ("block").toList else ("inline").toList)
        ("<").toList ++ wrapperTag ++ (" class=\"").toList ++ wrapperClass ++
          ("\">").toList ++ htmlOutput ++ ("</").toList ++ wrapperTag ++ (">").toList
    | .throws e =>
      let safeFormula := escLtGt formula
      let safeError := sanitizeMsg e
      let tag := if isBlock then ("div").toList else ("span").toList
      let errClass :=
        ("gladst-error-").toList ++ (if isBlock then ("block").toList else ("inline").toList)
      let title := ("title=\"").toList ++ escQuot safeError ++ ("\"").toList
      ("<").toList ++ tag ++ (" class=\"").toList ++ errClass ++ ("\" ").toList ++
        title ++ (">Critical Error rendering: ").toList ++ delimiter ++
        safeFormula ++ delimiter ++ ("</").toList ++ tag ++ (">").toList

/-- Whether an `Except` outcome is an error. -/
def isErrB {ε α : Type} : Except ε α → Bool
  | .error _ => true
  | .ok _ => false

/-- Decidable equality of `Except` outcomes, for evaluating the
normalizer on concrete configurations. -/
instance exceptDecEq {ε α : Type} [DecidableEq ε] [DecidableEq α] :
    DecidableEq (Except ε α) := fun a b =>
  match a, b with
  | .error x, .error y =>
    if h : x = y then .isTrue (by rw [h]) else .isFalse (by simp [h])
  | .error _, .ok _ => .isFalse (by simp)
  | .ok _, .error _ => .isFalse (by simp)
  | .ok x, .ok y =>
    if h : x = y then .isTrue (by rw [h]) else .isFalse (by simp [h])

/-- A font slot carrying two truthy sources at once (the configuration
the spec calls a dual-source conflict). -/
def slotConflict (s : Option FontSource) : Bool :=
  match s with
  | some f => truthyS f.system && truthyS f.file
  | none => false

/-- Some slot of the configuration carries two truthy sources. -/
def fontConflict (fc : FontConfig) : Bool :=
  slotConflict fc.bodyFont || slotConflict fc.mathFont

/-- The string contains no unescaped `$`, reading a backslash as
escaping the character after it (the spec's hypothesis on inline
bodies). -/
def noUnescDollar : Str → Bool
  | [] => true
  | c :: rest =>
    if c = bslash then
      match rest with
      | [] => true
      | _ :: rest2 => noUnescDollar rest2
    else if c = dollar then false
    else noUnescDollar rest

/-- As `noUnescDollar`, but additionally the string does not end in a
dangling backslash (which would escape the closing delimiter). -/
def escapeOK : Str → Bool
  | [] => true
  | c :: rest =>
    if c = bslash then
      match rest with
      | [] => false
      | _ :: rest2 => escapeOK rest2
    else if c = dollar then false
    else escapeOK rest

/-! ## Shared helper lemmas about the two scanner rules -/

/-- The inline rule either reports a match or returns `false` leaving
the state untouched. -/
theorem inline_total :
    ∀ (st : InlineState) (silent : Bool),
      (gladstInlineRule st silent).1 = true ∨ gladstInlineRule st silent = (false, st) := by
  intro st silent
  simp only [gladstInlineRule]
  repeat' split
  all_goals first | (left; rfl) | (right; rfl)

/-- A failing inline call leaves the state untouched. -/
theorem inline_false_state :
    ∀ (st : InlineState) (silent : Bool),
      (gladstInlineRule st silent).1 = false → (gladstInlineRule st silent).2 = st := by
  intro st silent h
  rcases inline_total st silent with h1 | h2
  · rw [h1] at h; cases h
  · rw [h2]

/-- A silent inline call leaves the state untouched. -/
theorem inline_silent_state :
    ∀ st : InlineState, (gladstInlineRule st true).2 = st := by
  intro st
  simp only [gladstInlineRule]
  repeat' split
  all_goals first | rfl | simp_all

/-- A committing inline match implies a silent inline match. -/
theorem inline_commit_imp_silent :
    ∀ st : InlineState, (gladstInlineRule st false).1 = true →
      (gladstInlineRule st true).1 = true := by
  intro st h
  simp only [gladstInlineRule] at h ⊢
  by_cases c1 : charAt st.src st.pos = some dollar
  · simp only [c1, ne_eq, not_true_eq_false, if_false, ite_false] at h ⊢
    by_cases c2 : 0 < st.pos ∧ charAt st.src (st.pos - 1) = some bslash
    · simp [c2] at h
    · simp only [c2, if_false, ite_false] at h ⊢
      by_cases c3 : charAt st.src (st.pos + 1) = some dollar
      · simp [c3] at h
      · simp only [c3, if_false, ite_false] at h ⊢
        rcases hscan : scanClose ((st.src.take st.posMax).drop (st.pos + 1)) 0 with _ | k
        · simp [hscan] at h
        · simp [hscan]
  · simp [c1] at h

/-- A silent block call leaves the state untouched. -/
theorem block_silent_state :
    ∀ (st : BlockState) (sl el : Nat), (gladstBlockRule st sl el true).2 = st := by
  intro st sl el
  simp only [gladstBlockRule]
  repeat' split
  all_goals first | rfl | simp_all

/-- Silent and committing block calls return the same verdict. -/
theorem block_silent_verdict :
    ∀ (st : BlockState) (sl el : Nat),
      (gladstBlockRule st sl el true).1 = (gladstBlockRule st sl el false).1 := by
  intro st sl el
  simp only [gladstBlockRule]
  repeat' split
  all_goals simp_all

/-! ## Claim C4: silent probe mode -/

/-- C4 counterexample: on the input `$ $` at position 0 the silent
inline probe reports a match while the committing invocation reports no
match (it rejects the empty trimmed content only after the silent
return), so the silent verdict does not always equal the committing
verdict. -/
theorem C4_counterexample_silent_mismatch :
    (gladstInlineRule (mkInlineState (("$ $").toList)) true).1 = true ∧
    (gladstInlineRule (mkInlineState (("$ $").toList)) false).1 = false := by
  constructor <;> decide

/-- C4 (amended): silent probes mutate nothing (no token is pushed and
the cursor/line is unchanged) for both rules; the block rule's silent
verdict always equals the committing verdict; for the inline rule a
committing match implies a silent match, but not conversely (the silent
probe also accepts bodies that trim to empty). -/
theorem C4_amended_silent_probe :
    (∀ (st : BlockState) (sl el : Nat),
        (gladstBlockRule st sl el true).1 = (gladstBlockRule st sl el false).1 ∧
        (gladstBlockRule st sl el true).2 = st) ∧
    (∀ st : InlineState, (gladstInlineRule st true).2 = st) ∧
    (∀ st : InlineState, (gladstInlineRule st false).1 = true →
        (gladstInlineRule st true).1 = true) :=
  ⟨fun st sl el => ⟨block_silent_verdict st sl el, block_silent_state st sl el⟩,
    inline_silent_state, inline_commit_imp_silent⟩

/-- C4 witness: the implication part of the amended claim applied to
the concrete input `$x$`. -/
theorem C4_amended_witness :
    (gladstInlineRule (mkInlineState (("$x$").toList)) false).1 = true ∧
    (gladstInlineRule (mkInlineState (("$x$").toList)) true).1 = true :=
  ⟨by decide, C4_amended_silent_probe.2.2 (mkInlineState (("$x$").toList)) (by decide)⟩

/-! ## Claim C3: ppi fallback -/

/-- C3: evaluating the code's ppi normalization at the inputs the claim
is about (absent, null, and non-positive numbers) produces the concrete
value 300, never the `null` that would select the engine default; this
contradicts the claim (and the code's own documentation), exhibiting
the code bug. -/
theorem C3_ppi_default_eval :
    normalizePpi .undefined = some 300 ∧ normalizePpi .null = some 300 ∧
    normalizePpi (.num 0) = some 300 ∧ normalizePpi (.num (-50)) = some 300 ∧
    normalizePpi .undefined ≠ none := by
  refine ⟨rfl, rfl, ?_, ?_, by simp [normalizePpi]⟩ <;> norm_num [normalizePpi]

/-! ## Claim C10: backslash-escaped opening dollar -/

/-- C10: whenever the character before the scan position is a
backslash, the inline rule reports no match and changes nothing,
irrespective of silent mode and of whether that backslash is itself
escaped (the code only inspects the single preceding character). -/
theorem C10_escaped_dollar_declines :
    ∀ (st : InlineState) (silent : Bool),
      0 < st.pos → charAt st.src (st.pos - 1) = some bslash →
      gladstInlineRule st silent = (false, st) := by
  intro st silent hpos hprev
  simp only [gladstInlineRule]
  by_cases c1 : charAt st.src st.pos = some dollar
  · simp [c1, hpos, hprev]
  · simp [c1]

/-- C10 witness: the theorem applied to the source `\\$x$` at the
position of the `$` following the doubled (self-escaped) backslash. -/
theorem C10_witness :
    0 < 2 ∧ charAt (("\\\\$x$").toList) 1 = some bslash ∧
    gladstInlineRule { src := ("\\\\$x$").toList, pos := 2, posMax := 5, tokens := [] } false =
      (false, { src := ("\\\\$x$").toList, pos := 2, posMax := 5, tokens := [] }) :=
  ⟨by decide, by decide,
    C10_escaped_dollar_declines
      { src := ("\\\\$x$").toList, pos := 2, posMax := 5, tokens := [] } false
      (by decide) (by decide)⟩

/-! ## Claim C1: non-empty rawContent -/

/-- C1 counterexample: on the single-line document `$$$$` the block
rule succeeds and emits a region whose content is the empty string, so
the scanner does not reject every empty body (the claim fails for the
block rule). -/
theorem C1_counterexample_block_empty :
    (gladstBlockRule (mkBlockState [("$$$$").toList]) 0 1 false).1 = true ∧
    (gladstBlockRule (mkBlockState [("$$$$").toList]) 0 1 false).2.tokens =
      [{ ttype := blockType, content := [], markup := dd, blockB := true,
         tmap := some (0, 1) }] := by
  constructor <;> decide

/-- C1 (amended): the non-empty-content invariant holds for the inline
rule only: every token the inline rule adds to the stream has
non-empty content; the block rule can emit empty content (for example
on `$$$$`). -/
theorem C1_amended_inline_nonempty :
    ∀ (st : InlineState) (silent : Bool) (t : MathToken),
      t ∈ (gladstInlineRule st silent).2.tokens → t ∈ st.tokens ∨ t.content ≠ [] := by
  intro st silent t ht
  rcases inline_total st silent with h1 | h2
  · simp only [gladstInlineRule] at ht
    repeat' split at ht
    all_goals try exact .inl ht
    · rcases List.mem_append.1 ht with hl | hr
      · exact .inl hl
      · right
        simp only [List.mem_singleton] at hr
        subst hr
        simp_all
  · rw [h2] at ht
    exact .inl ht

/-- C1 witness: the amended theorem applied to the token emitted for
the concrete input `$x$`. -/
theorem C1_amended_witness :
    (⟨inlineType, ['x'], [dollar], false, none⟩ : MathToken) ∈
        (gladstInlineRule (mkInlineState (("$x$").toList)) false).2.tokens ∧
    ((⟨inlineType, ['x'], [dollar], false, none⟩ : MathToken) ∈
        (mkInlineState (("$x$").toList)).tokens ∨
      (⟨inlineType, ['x'], [dollar], false, none⟩ : MathToken).content ≠ []) :=
  ⟨by decide,
    C1_amended_inline_nonempty (mkInlineState (("$x$").toList)) false
      ⟨inlineType, ['x'], [dollar], false, none⟩ (by decide)⟩

/-! ## Claim C8: dual-source font conflict -/

/-- One slot of `normalizeFontConfig` errors exactly when the slot
carries two truthy sources. -/
theorem slot_isErr :
    ∀ (s : Option FontSource) (m : Str),
      isErrB (normalizeFontSlot s m) = slotConflict s := by
  intro s m
  cases s with
  | none => rfl
  | some f =>
    simp only [normalizeFontSlot, slotConflict]
    by_cases h : truthyS f.system && truthyS f.file
    · simp [h, isErrB]
    · simp only [h, if_false, ite_false, Bool.false_eq]
      repeat' split
      all_goals simp_all [isErrB]

/-- C8: for every font configuration, normalization fails exactly when
some slot carries both a (truthy, i.e. present and non-empty) system
name and file path, regardless of all other fields; configurations with
at most one source per slot never trigger the error. -/
theorem C8_font_conflict :
    ∀ fc : FontConfig,
      isErrB (normalizeFontConfig (some fc)) = fontConflict fc := by
  intro fc
  simp only [normalizeFontConfig, fontConflict]
  rcases hb : normalizeFontSlot fc.bodyFont bodyFontErr with m | rb
  · have h1 := slot_isErr fc.bodyFont bodyFontErr
    rw [hb] at h1
    simp only [isErrB] at h1
    simp [isErrB, ← h1]
  · have h1 := slot_isErr fc.bodyFont bodyFontErr
    rw [hb] at h1
    simp only [isErrB] at h1
    rcases hm : normalizeFontSlot fc.mathFont mathFontErr with m2 | rm
    · have h2 := slot_isErr fc.mathFont mathFontErr
      rw [hm] at h2
      simp only [isErrB] at h2
      simp [isErrB, ← h1, ← h2]
    · have h2 := slot_isErr fc.mathFont mathFontErr
      rw [hm] at h2
      simp only [isErrB] at h2
      simp [isErrB, ← h1, ← h2]

/-! ## Claim C9: idempotence of normalization -/

/-- The code's ppi handling always produces a positive number. -/
theorem ppi_some_pos : ∀ p : JsPpi, ∃ q : ℚ, normalizePpi p = some q ∧ 0 < q := by
  intro p
  cases p with
  | num q =>
    by_cases h : 0 < q
    · exact ⟨q, by simp [normalizePpi, h], h⟩
    · exact ⟨300, by simp [normalizePpi, h], by norm_num⟩
  | null => exact ⟨300, rfl, by norm_num⟩
  | undefined => exact ⟨300, rfl, by norm_num⟩

/-- Every successfully normalized options value has format `png` or
`svg` and a positive numeric ppi. -/
theorem normalizeOptions_ok_shape :
    ∀ (u : GladstUserOptions) (i : InternalRustOptions),
      normalizeOptions (some u) = .ok i →
      (i.format = pngFmt ∨ i.format = svgFmt) ∧ ∃ q : ℚ, i.ppi = some q ∧ 0 < q := by
  intro u i h
  simp only [normalizeOptions] at h
  rcases hf : normalizeFontConfig u.fonts with m | f
  · rw [hf] at h; cases h
  · rw [hf] at h
    simp only [Except.ok.injEq] at h
    subst h
    constructor
    · by_cases hc : u.format = some pngFmt
      · left; simp [hc]
      · right; simp [hc]
    · simpa using ppi_some_pos u.ppi

/-- A normalized font slot read back as a user slot normalizes to
nothing: its `system`/`file` properties are absent. -/
theorem slot_reapply : ∀ (s : Option RustFontSlot) (m : Str),
    normalizeFontSlot (s.map rustSlotAsFontSource) m = .ok none := by
  intro s m
  cases s <;> simp [normalizeFontSlot, rustSlotAsFontSource, truthyS]

/-- Re-normalizing a normalized fonts object always drops it. -/
theorem fonts_reapply : ∀ fo : Option RustFonts,
    normalizeFontConfig (fo.map rustFontsAsFontConfig) = .ok none := by
  intro fo
  cases fo with
  | none => rfl
  | some r =>
    simp only [Option.map]
    simp only [normalizeFontConfig, rustFontsAsFontConfig]
    rw [slot_reapply, slot_reapply]
    simp

/-- Re-normalizing a normalized options value keeps format and ppi but
replaces the fonts by `none`. -/
theorem normalizeOptions_reapply :
    ∀ i : InternalRustOptions,
      (i.format = pngFmt ∨ i.format = svgFmt) →
      (∃ q : ℚ, i.ppi = some q ∧ 0 < q) →
      normalizeOptions (some (internalAsUser i)) =
        .ok { format := i.format, ppi := i.ppi, fonts := none } := by
  intro i hfmt hppi
  obtain ⟨q, hq, hqpos⟩ := hppi
  simp only [normalizeOptions, internalAsUser]
  rw [fonts_reapply]
  simp only [Except.ok.injEq, InternalRustOptions.mk.injEq]
  refine ⟨?_, ?_, trivial⟩
  · rcases hfmt with h | h
    · simp [h]
    · simp [h, show svgFmt ≠ pngFmt from by decide]
  · rw [hq]
    simp [normalizePpi, hqpos]

/-- C9 (amended): normalization applied twice agrees with a single
application on the format and ppi components for every configuration,
and is fully idempotent exactly on configurations whose normalized
fonts are absent; when fonts are present the second application drops
them (the normalized slot shape `type`/`value` carries no
`system`/`file` property to read back), so idempotence fails in
general. -/
theorem C9_amended_idempotence :
    (∀ (u : GladstUserOptions) (i : InternalRustOptions),
        normalizeOptions (some u) = .ok i → i.fonts = none →
        normalizeOptions (some (internalAsUser i)) = .ok i) ∧
    (∀ (u : GladstUserOptions) (i j : InternalRustOptions),
        normalizeOptions (some u) = .ok i →
        normalizeOptions (some (internalAsUser i)) = .ok j →
        j.format = i.format ∧ j.ppi = i.ppi) := by
  constructor
  · intro u i h hf
    obtain ⟨hfmt, hppi⟩ := normalizeOptions_ok_shape u i h
    rw [normalizeOptions_reapply i hfmt hppi]
    obtain ⟨f, p, fo⟩ := i
    simp_all
  · intro u i j h h2
    obtain ⟨hfmt, hppi⟩ := normalizeOptions_ok_shape u i h
    rw [normalizeOptions_reapply i hfmt hppi] at h2
    simp only [Except.ok.injEq] at h2
    subst h2
    exact ⟨rfl, rfl⟩

/-- A concrete user configuration with one system body font. -/
def cfgFontsA : GladstUserOptions :=
  { format := none, ppi := .undefined,
    fonts := some { bodyFont := some { system := some ['A'], file := none },
                    mathFont := none } }

/-- The result of normalizing `cfgFontsA` once. -/
def cfgFontsA1 : InternalRustOptions :=
  { format := svgFmt, ppi := some 300,
    fonts := some { bodyFont := some (.sys ['A']), mathFont := none } }

/-- The result of normalizing `cfgFontsA` twice. -/
def cfgFontsA2 : InternalRustOptions :=
  { format := svgFmt, ppi := some 300, fonts := none }

/-- C9 counterexample: normalizing a configuration carrying a body
font once yields an options value with fonts, but running the
normalization again on that value yields an options value without
fonts, so the two results differ and normalization is not idempotent
as claimed. -/
theorem C9_counterexample_fonts_dropped :
    normalizeOptions (some cfgFontsA) = .ok cfgFontsA1 ∧
    normalizeOptions (some (internalAsUser cfgFontsA1)) = .ok cfgFontsA2 ∧
    cfgFontsA2 ≠ cfgFontsA1 := by
  refine ⟨by decide, by decide, by decide⟩

/-- C9 witness: the idempotence part of the amended theorem applied to
the empty configuration. -/
theorem C9_amended_witness :
    normalizeOptions (some ({ format := none, ppi := .undefined, fonts := none } :
        GladstUserOptions)) = .ok cfgFontsA2 ∧
    normalizeOptions (some (internalAsUser cfgFontsA2)) = .ok cfgFontsA2 :=
  ⟨by decide,
    C9_amended_idempotence.1 { format := none, ppi := .undefined, fonts := none }
      cfgFontsA2 (by decide) rfl⟩

/-! ## Claims C2 and C5: the error fragment of the catch branch -/

/-- Replacing every `c` by a `c`-free text leaves no `c`. -/
theorem count_replAll_self :
    ∀ (s : Str) (c : Char) (r : Str), c ∉ r → (replAll s c r).count c = 0 := by
  intro s c r h
  induction s with
  | nil => rfl
  | cons x xs ih =>
    simp only [replAll, List.count_append]
    by_cases hx : x = c
    · simp [hx, ih, List.count_eq_zero.2 h]
    · simp [hx, ih, List.count_cons]

/-- Replacing `c` by a `d`-free text preserves the number of `d`s. -/
theorem count_replAll_other :
    ∀ (s : Str) (c d : Char) (r : Str), d ≠ c → d ∉ r →
      (replAll s c r).count d = s.count d := by
  intro s c d r hdc hdr
  induction s with
  | nil => rfl
  | cons x xs ih =>
    simp only [replAll, List.count_append, List.count_cons]
    by_cases hx : x = c
    · simp [hx, ih, List.count_eq_zero.2 hdr, show ¬ (c = d) from fun hh => hdc hh.symm]
    · simp [hx, ih, List.count_cons, Nat.add_comm]

/-- The `<`/`>` escape leaves no raw `<`. -/
theorem count_escLtGt_lt : ∀ s : Str, (escLtGt s).count '<' = 0 := by
  intro s
  unfold escLtGt
  rw [count_replAll_other _ _ _ _ (by decide) (by decide)]
  exact count_replAll_self _ _ _ (by decide)

/-- The `<`/`>` escape leaves no raw `>`. -/
theorem count_escLtGt_gt : ∀ s : Str, (escLtGt s).count '>' = 0 := by
  intro s
  unfold escLtGt
  exact count_replAll_self _ _ _ (by decide)

/-- The `<`/`>` escape does not touch double quotes. -/
theorem count_escLtGt_quot : ∀ s : Str, (escLtGt s).count '"' = s.count '"' := by
  intro s
  unfold escLtGt
  rw [count_replAll_other _ _ _ _ (by decide) (by decide)]
  exact count_replAll_other _ _ _ _ (by decide) (by decide)

/-- The quote escape leaves no raw `"`. -/
theorem count_escQuot_quot : ∀ s : Str, (escQuot s).count '"' = 0 := by
  intro s
  exact count_replAll_self _ _ _ (by decide)

/-- The quote escape does not touch `<`. -/
theorem count_escQuot_lt : ∀ s : Str, (escQuot s).count '<' = s.count '<' := by
  intro s
  exact count_replAll_other _ _ _ _ (by decide) (by decide)

/-- The quote escape does not touch `>`. -/
theorem count_escQuot_gt : ∀ s : Str, (escQuot s).count '>' = s.count '>' := by
  intro s
  exact count_replAll_other _ _ _ _ (by decide) (by decide)

/-- Sanitized messages carry no raw `<`. -/
theorem count_sanitize_lt : ∀ e : JsError, (sanitizeMsg e).count '<' = 0 := by
  intro e
  cases e with
  | errorMsg m => exact count_escLtGt_lt m
  | nonError => decide

/-- Sanitized messages carry no raw `>`. -/
theorem count_sanitize_gt : ∀ e : JsError, (sanitizeMsg e).count '>' = 0 := by
  intro e
  cases e with
  | errorMsg m => exact count_escLtGt_gt m
  | nonError => decide

/-- The concrete markup before the title value of the catch-branch
error fragment. -/
def errFragHead (isBlock : Bool) : Str :=
  if isBlock then ("<div class=\"gladst-error-block\" title=\"").toList
  else ("<span class=\"gladst-error-inline\" title=\"").toList

/-- The concrete markup between the title value and the delimiter. -/
def errFragMid : Str := ("\">Critical Error rendering: ").toList

/-- The concrete markup closing the catch-branch error fragment. -/
def errFragTail (isBlock : Bool) : Str :=
  if isBlock then ("</div>").toList else ("</span>").toList

/-- Decomposition of the catch-branch fragment into its concrete
markup pieces and the three inserted texts. -/
theorem renderFormula_throws_shape :
    ∀ (formula delimiter : Str) (isBlock : Bool) (e : JsError),
      formula ≠ [] → delimiter ≠ [] →
      renderFormula formula delimiter isBlock (.throws e) =
        errFragHead isBlock ++ escQuot (sanitizeMsg e) ++ errFragMid ++
          delimiter ++ escLtGt formula ++ delimiter ++ errFragTail isBlock := by
  intro formula delimiter isBlock e h1 h2
  have hg : ¬((formula = [] || delimiter = []) = true) := by simp [h1, h2]
  cases isBlock
  · simp only [renderFormula, if_neg hg]
    rw [show errFragHead false = ("<").toList ++ (("span").toList ++
      ((" class=\"").toList ++ ((("gladst-error-").toList ++ ("inline").toList) ++
      (("\" ").toList ++ ("title=\"").toList)))) from by decide]
    rw [show errFragTail false = ("</").toList ++ (("span").toList ++ (">").toList)
      from by decide]
    rw [show errFragMid = ("\"").toList ++ (">Critical Error rendering: ").toList
      from by decide]
    simp [List.append_assoc]
  · simp only [renderFormula, if_neg hg]
    rw [show errFragHead true = ("<").toList ++ (("div").toList ++
      ((" class=\"").toList ++ ((("gladst-error-").toList ++ ("block").toList) ++
      (("\" ").toList ++ ("title=\"").toList)))) from by decide]
    rw [show errFragTail true = ("</").toList ++ (("div").toList ++ (">").toList)
      from by decide]
    rw [show errFragMid = ("\"").toList ++ (">Critical Error rendering: ").toList
      from by decide]
    simp [List.append_assoc]

/-- C2 (amended): in the catch-branch error fragment, the formula's
`<` and `>` and all of the message's `<`, `>`, `"` are escaped — the
fragment contains exactly the two `<`, two `>` and four `"` of the
fixed markup — but the formula's double quotes are inserted into the
element body unescaped, so the `"` count grows with the formula's. -/
theorem C2_amended_escaping :
    ∀ (formula delimiter : Str) (isBlock : Bool) (e : JsError),
      formula ≠ [] → delimiter ≠ [] →
      delimiter.count '<' = 0 → delimiter.count '>' = 0 → delimiter.count '"' = 0 →
      (renderFormula formula delimiter isBlock (.throws e)).count '<' = 2 ∧
      (renderFormula formula delimiter isBlock (.throws e)).count '>' = 2 ∧
      (renderFormula formula delimiter isBlock (.throws e)).count '"' =
        4 + formula.count '"' := by
  intro formula delimiter isBlock e h1 h2 hd1 hd2 hd3
  rw [renderFormula_throws_shape formula delimiter isBlock e h1 h2]
  have hh1 : (errFragHead isBlock).count '<' = 1 := by cases isBlock <;> decide
  have hh2 : (errFragHead isBlock).count '>' = 0 := by cases isBlock <;> decide
  have hh3 : (errFragHead isBlock).count '"' = 3 := by cases isBlock <;> decide
  have hm1 : errFragMid.count '<' = 0 := by decide
  have hm2 : errFragMid.count '>' = 1 := by decide
  have hm3 : errFragMid.count '"' = 1 := by decide
  have ht1 : (errFragTail isBlock).count '<' = 1 := by cases isBlock <;> decide
  have ht2 : (errFragTail isBlock).count '>' = 1 := by cases isBlock <;> decide
  have ht3 : (errFragTail isBlock).count '"' = 0 := by cases isBlock <;> decide
  have hq1 : (escQuot (sanitizeMsg e)).count '<' = 0 := by
    rw [count_escQuot_lt]; exact count_sanitize_lt e
  have hq2 : (escQuot (sanitizeMsg e)).count '>' = 0 := by
    rw [count_escQuot_gt]; exact count_sanitize_gt e
  have hq3 : (escQuot (sanitizeMsg e)).count '"' = 0 := count_escQuot_quot _
  refine ⟨?_, ?_, ?_⟩
  all_goals
    simp only [List.count_append, hh1, hh2, hh3, hm1, hm2, hm3, ht1, ht2, ht3,
      hq1, hq2, hq3, hd1, hd2, hd3, count_escLtGt_lt, count_escLtGt_gt,
      count_escLtGt_quot]
  all_goals omega

/-- C2 counterexample: for the formula `a"b` the produced fragment
contains the raw double quote of the formula unescaped (five raw `"`
where the fixed markup contributes four), so not all occurrences of
the three reserved characters in the formula text are escaped. -/
theorem C2_counterexample_quote_unescaped :
    renderFormula (("a\"b").toList) [dollar] false (.throws (.errorMsg ['x'])) =
      ("<span class=\"gladst-error-inline\" title=\"x\">Critical Error rendering: $a\"b$</span>").toList ∧
    (("<span class=\"gladst-error-inline\" title=\"x\">Critical Error rendering: $a\"b$</span>").toList).count '"' = 5 := by
  refine ⟨by decide, by decide⟩

/-- C2 witness: the amended theorem applied to the formula `a"b`, the
inline delimiter and a thrown `Error` with message `x`. -/
theorem C2_amended_witness :
    ((("a\"b").toList ≠ []) ∧ (([dollar] : Str) ≠ []) ∧
      ([dollar] : Str).count '<' = 0 ∧ ([dollar] : Str).count '>' = 0 ∧
      ([dollar] : Str).count '"' = 0) ∧
    ((renderFormula (("a\"b").toList) [dollar] false (.throws (.errorMsg ['x']))).count '<' = 2 ∧
      (renderFormula (("a\"b").toList) [dollar] false (.throws (.errorMsg ['x']))).count '>' = 2 ∧
      (renderFormula (("a\"b").toList) [dollar] false (.throws (.errorMsg ['x']))).count '"' =
        4 + (("a\"b").toList).count '"') :=
  ⟨⟨by decide, by decide, by decide, by decide, by decide⟩,
    C2_amended_escaping (("a\"b").toList) [dollar] false (.errorMsg ['x'])
      (by decide) (by decide) (by decide) (by decide) (by decide)⟩

/-- Replacement with a non-empty replacement text maps non-empty
strings to non-empty strings. -/
theorem replAll_ne_nil :
    ∀ (s : Str) (c : Char) (r : Str), r ≠ [] → s ≠ [] → replAll s c r ≠ [] := by
  intro s c r hr hs
  cases s with
  | nil => exact absurd rfl hs
  | cons x xs =>
    simp only [replAll]
    intro hcontra
    rcases List.append_eq_nil.1 hcontra with ⟨ha, hb⟩
    by_cases hx : x = c
    · rw [if_pos hx] at ha; exact hr ha
    · rw [if_neg hx] at ha; cases ha

/-- The sanitized and quote-escaped message is non-empty for every
thrown value except an `Error` whose own message is empty. -/
theorem escQuot_sanitize_ne_nil :
    ∀ e : JsError, e ≠ .errorMsg [] → escQuot (sanitizeMsg e) ≠ [] := by
  intro e he
  cases e with
  | nonError => decide
  | errorMsg m =>
    have hm : m ≠ [] := fun hh => he (by rw [hh])
    have h1 : replAll m '<' ltEsc ≠ [] := replAll_ne_nil m '<' ltEsc (by decide) hm
    have h2 : escLtGt m ≠ [] := replAll_ne_nil _ '>' gtEsc (by decide) h1
    exact replAll_ne_nil _ '"' quotEsc (by decide) h2

/-- C5 (amended): whenever the native call throws, the dispatcher
returns (never re-throws) an error fragment that starts with the
error-class marker, embeds the escaped original formula between its
delimiters, and embeds the sanitized message; the message is non-empty
except when the thrown value is an `Error` whose own message is empty. -/
theorem C5_amended_infrastructure_failure :
    ∀ (formula delimiter : Str) (isBlock : Bool) (e : JsError),
      formula ≠ [] → delimiter ≠ [] →
      (∃ rest, renderFormula formula delimiter isBlock (.throws e) =
          (if isBlock then errMarkDiv else errMarkSpan) ++ rest) ∧
      (∃ a b, renderFormula formula delimiter isBlock (.throws e) =
          a ++ (delimiter ++ escLtGt formula ++ delimiter) ++ b) ∧
      (∃ a b, renderFormula formula delimiter isBlock (.throws e) =
          a ++ escQuot (sanitizeMsg e) ++ b) ∧
      (e ≠ .errorMsg [] → escQuot (sanitizeMsg e) ≠ []) := by
  intro f d ib e h1 h2
  rw [renderFormula_throws_shape f d ib e h1 h2]
  refine ⟨?_, ?_, ?_, escQuot_sanitize_ne_nil e⟩
  · cases ib
    · refine ⟨("-inline\" title=\"").toList ++ escQuot (sanitizeMsg e) ++ errFragMid ++
        d ++ escLtGt f ++ d ++ errFragTail false, ?_⟩
      rw [show errFragHead false = errMarkSpan ++ ("-inline\" title=\"").toList from by decide]
      simp [List.append_assoc]
    · refine ⟨("-block\" title=\"").toList ++ escQuot (sanitizeMsg e) ++ errFragMid ++
        d ++ escLtGt f ++ d ++ errFragTail true, ?_⟩
      rw [show errFragHead true = errMarkDiv ++ ("-block\" title=\"").toList from by decide]
      simp [List.append_assoc]
  · exact ⟨errFragHead ib ++ escQuot (sanitizeMsg e) ++ errFragMid, errFragTail ib,
      by simp [List.append_assoc]⟩
  · exact ⟨errFragHead ib, errFragMid ++ d ++ escLtGt f ++ d ++ errFragTail ib,
      by simp [List.append_assoc]⟩

/-- C5 counterexample: a thrown `Error` with empty message yields a
fragment whose title attribute — the sanitized error message — is
empty, so the produced message is not always non-empty as claimed. -/
theorem C5_counterexample_empty_message :
    renderFormula ['f'] [dollar] false (.throws (.errorMsg [])) =
      ("<span class=\"gladst-error-inline\" title=\"\">Critical Error rendering: $f$</span>").toList ∧
    escQuot (sanitizeMsg (.errorMsg [])) = [] := by
  refine ⟨by decide, by decide⟩

/-- C5 witness: the amended theorem applied to the formula `f` with a
thrown non-`Error` value. -/
theorem C5_amended_witness :
    ((['f'] : Str) ≠ [] ∧ ([dollar] : Str) ≠ []) ∧
    ((∃ rest, renderFormula ['f'] [dollar] false (.throws .nonError) =
        (if false then errMarkDiv else errMarkSpan) ++ rest) ∧
      (∃ a b, renderFormula ['f'] [dollar] false (.throws .nonError) =
          a ++ (([dollar] : Str) ++ escLtGt ['f'] ++ ([dollar] : Str)) ++ b) ∧
      (∃ a b, renderFormula ['f'] [dollar] false (.throws .nonError) =
          a ++ escQuot (sanitizeMsg .nonError) ++ b) ∧
      (JsError.nonError ≠ .errorMsg [] → escQuot (sanitizeMsg .nonError) ≠ [])) :=
  ⟨⟨by decide, by decide⟩,
    C5_amended_infrastructure_failure ['f'] [dollar] false .nonError
      (by decide) (by decide)⟩

/-! ## Claim C7: the inline success contract -/

/-- On a body with no unescaped dollar, no newline and no dangling
escape, the scanning loop finds exactly the appended closing dollar. -/
theorem scanClose_finds :
    ∀ (X : Str) (k : Nat), escapeOK X = true → nlChar ∉ X →
      scanClose (X ++ [dollar]) k = some (k + X.length) := by
  intro X
  induction X using escapeOK.induct with
  | case1 => intro k _ _; simp [scanClose]
  | case2 => intro k h _; simp [escapeOK] at h
  | case3 head rest2 ih =>
    intro k h hnl
    have h' : escapeOK rest2 = true := by
      have e : escapeOK (bslash :: head :: rest2) = escapeOK rest2 := rfl
      rw [e] at h; exact h
    have hnl' : nlChar ∉ rest2 := fun hm =>
      hnl (List.mem_cons_of_mem _ (List.mem_cons_of_mem _ hm))
    have step : scanClose ((bslash :: head :: rest2) ++ [dollar]) k =
        scanClose (rest2 ++ [dollar]) (k + 2) := rfl
    rw [step, ih (k + 2) h' hnl']
    congr 1
    try simp only [List.length_cons]
    omega
  | case4 xs hx =>
    intro k h _
    rw [escapeOK.eq_def] at h
    dsimp only at h
    rw [if_neg (show ¬ dollar = bslash from by decide), if_pos rfl] at h
    cases h
  | case5 x xs hxb hxd ih =>
    intro k h hnl
    have h' : escapeOK xs = true := by
      rw [escapeOK.eq_def] at h
      dsimp only at h
      rw [if_neg hxb, if_neg hxd] at h
      exact h
    have hnl' : nlChar ∉ xs := fun hm => hnl (List.mem_cons_of_mem _ hm)
    have hxn : ¬ x = nlChar := fun hm => hnl (by rw [hm]; exact List.mem_cons_self _ _)
    have step : scanClose ((x :: xs) ++ [dollar]) k =
        scanClose (xs ++ [dollar]) (k + 1) := by
      show scanClose (x :: (xs ++ [dollar])) k = _
      rw [scanClose.eq_def]
      dsimp only
      rw [if_neg hxd, if_neg hxb, if_neg hxn]
    rw [step, ih (k + 1) h' hnl']
    congr 1
    try simp only [List.length_cons]
    omega

/-- The committing inline rule on the whole input `$X$`, for a body
with no unescaped dollar, no newline, no dangling escape and a
non-empty trimmed content: it emits one token with the trimmed body
and moves the cursor exactly past the closing dollar. -/
theorem inline_success :
    ∀ X : Str, escapeOK X = true → nlChar ∉ X → jsTrim X ≠ [] →
      gladstInlineRule (mkInlineState (dollar :: X ++ [dollar])) false =
        (true, { src := dollar :: X ++ [dollar], pos := X.length + 2,
                 posMax := X.length + 2,
                 tokens := [{ ttype := inlineType, content := jsTrim X,
                              markup := [dollar], blockB := false, tmap := none }] }) := by
  intro X hesc hnl htrim
  have hXne : X ≠ [] := fun hh => htrim (by rw [hh]; rfl)
  obtain ⟨x, X', rfl⟩ : ∃ x X', X = x :: X' := by
    cases X with
    | nil => exact absurd rfl hXne
    | cons a b => exact ⟨a, b, rfl⟩
  have hxd : ¬ x = dollar := by
    rw [escapeOK.eq_def] at hesc
    dsimp only at hesc
    by_cases hb : x = bslash
    · rw [hb]; decide
    · rw [if_neg hb] at hesc
      intro hx
      rw [if_pos hx] at hesc
      cases hesc
  have hlen : (dollar :: (x :: X') ++ [dollar]).length = (x :: X').length + 2 := by
    simp
  simp only [gladstInlineRule, mkInlineState]
  rw [if_neg (show ¬ (charAt (dollar :: (x :: X') ++ [dollar]) 0 ≠ some dollar) from by
    simp [charAt])]
  rw [if_neg (show ¬ (0 < 0 ∧ charAt (dollar :: (x :: X') ++ [dollar]) (0 - 1) = some bslash)
    from by simp)]
  rw [if_neg (show ¬ (charAt (dollar :: (x :: X') ++ [dollar]) (0 + 1) = some dollar) from by
    simp [charAt, hxd])]
  have hw : ((dollar :: (x :: X') ++ [dollar]).take
      (dollar :: (x :: X') ++ [dollar]).length).drop (0 + 1) = (x :: X') ++ [dollar] := by
    rw [List.take_length]
    rfl
  rw [hw, scanClose_finds (x :: X') 0 hesc hnl]
  dsimp only
  rw [if_neg (show ¬ (false = true) from by decide)]
  simp only [Nat.zero_add, List.nil_append]
  have hsl : jsSlice ((dollar :: x :: X') ++ [dollar]) 1 (1 + (x :: X').length) = x :: X' := by
    unfold jsSlice
    rw [show (1 + (x :: X').length) = (dollar :: x :: X').length from by
      simp only [List.length_cons]
      omega]
    rw [List.take_left]
    rfl
  rw [hsl, if_neg htrim]
  rw [show 1 + (x :: X').length + 1 = (x :: X').length + 2 from by omega, hlen]

/-- C7 counterexample: the body `a\` satisfies the claim's hypotheses
(no unescaped `$`, no newline, non-empty after trimming), yet the rule
yields no region on `$a\$`: the trailing backslash escapes the closing
delimiter, so the claim as stated fails. -/
theorem C7_counterexample_trailing_backslash :
    noUnescDollar (("a\\").toList) = true ∧ nlChar ∉ (("a\\").toList) ∧
    jsTrim (("a\\").toList) ≠ [] ∧
    gladstInlineRule (mkInlineState (("$a\\$").toList)) false =
      (false, mkInlineState (("$a\\$").toList)) := by
  refine ⟨by decide, by decide, by decide, by decide⟩

/-- C7 (amended): adding to the claim's hypotheses that the body does
not end in a dangling backslash, the inline rule on `$X$` emits a
region with the trimmed body and advances the cursor exactly past the
closing dollar; `$ $` yields no region; and on any failing invocation
the cursor is not advanced. -/
theorem C7_amended_inline_contract :
    (∀ X : Str, escapeOK X = true → nlChar ∉ X → jsTrim X ≠ [] →
      gladstInlineRule (mkInlineState ((dollar :: X) ++ [dollar])) false =
        (true, { src := (dollar :: X) ++ [dollar], pos := X.length + 2,
                 posMax := X.length + 2,
                 tokens := [{ ttype := inlineType, content := jsTrim X,
                              markup := [dollar], blockB := false, tmap := none }] })) ∧
    (gladstInlineRule (mkInlineState (("$ $").toList)) false =
      (false, mkInlineState (("$ $").toList))) ∧
    (∀ (st : InlineState) (silent : Bool), (gladstInlineRule st silent).1 = false →
      (gladstInlineRule st silent).2 = st) :=
  ⟨inline_success, by decide, inline_false_state⟩

/-- C7 witness: the success part of the amended theorem applied to the
body `a+b`. -/
theorem C7_amended_witness :
    (escapeOK (("a+b").toList) = true ∧ nlChar ∉ (("a+b").toList) ∧
      jsTrim (("a+b").toList) ≠ []) ∧
    gladstInlineRule (mkInlineState ((dollar :: ("a+b").toList) ++ [dollar])) false =
      (true, { src := (dollar :: ("a+b").toList) ++ [dollar], pos := 5, posMax := 5,
               tokens := [{ ttype := inlineType, content := jsTrim (("a+b").toList),
                            markup := [dollar], blockB := false, tmap := none }] }) :=
  ⟨⟨by decide, by decide, by decide⟩,
    by rw [C7_amended_inline_contract.1 (("a+b").toList) (by decide) (by decide) (by decide)]; rfl⟩

/-! ## Claim C6: the multi-line block contract -/

/-- Slicing the newline-joined document at the offsets of line `n`
recovers line `n`. -/
theorem jsSlice_join :
    ∀ (ls : List Str) (pre : Str) (n : Nat) (l : Str),
      ls[n]? = some l →
      jsSlice (pre ++ joinNL ls)
          (((lineOffsets pre.length ls).map Prod.fst).getD n 0)
          (((lineOffsets pre.length ls).map Prod.snd).getD n 0) = l := by
  intro ls
  induction ls with
  | nil => intro pre n l h; simp at h
  | cons a ls ih =>
    intro pre n l h
    cases n with
    | zero =>
      simp only [List.getElem?_cons_zero, Option.some.injEq] at h
      subst h
      simp only [lineOffsets, List.map_cons, List.getD_cons_zero]
      cases ls with
      | nil =>
        show jsSlice (pre ++ a) pre.length (pre.length + a.length) = a
        unfold jsSlice
        rw [show pre.length + a.length = (pre ++ a).length from by simp]
        rw [List.take_length]
        rw [List.drop_left]
      | cons b ls' =>
        have hj : pre ++ joinNL (a :: b :: ls') =
            (pre ++ a) ++ (nlChar :: joinNL (b :: ls')) := by
          show pre ++ (a ++ (nlChar :: joinNL (b :: ls'))) = _
          rw [List.append_assoc]
        rw [hj]
        unfold jsSlice
        rw [show pre.length + a.length = (pre ++ a).length from by simp]
        rw [List.take_left]
        rw [List.drop_left]
    | succ n' =>
      simp only [List.getElem?_cons_succ] at h
      simp only [lineOffsets, List.map_cons, List.getD_cons_succ]
      have hls : ls ≠ [] := by
        intro he; rw [he] at h; simp at h
      obtain ⟨b, ls', rfl⟩ : ∃ b ls', ls = b :: ls' := by
        cases ls with
        | nil => exact absurd rfl hls
        | cons x y => exact ⟨x, y, rfl⟩
      have hj : pre ++ joinNL (a :: b :: ls') =
          (pre ++ a ++ [nlChar]) ++ joinNL (b :: ls') := by
        show pre ++ (a ++ (nlChar :: joinNL (b :: ls'))) = _
        rw [List.append_assoc, List.append_assoc]
        rfl
      rw [hj]
      have hlen : pre.length + a.length + 1 = (pre ++ a ++ [nlChar]).length := by
        simp
        omega
      rw [hlen]
      exact ih (pre ++ a ++ [nlChar]) n' l h

/-- Reading a replicated all-zero list always yields zero. -/
theorem replicate_zero_getD : ∀ (k n : Nat), (List.replicate k (0:Nat)).getD n 0 = 0 := by
  intro k
  induction k with
  | zero => intro n; cases n <;> rfl
  | succ k ih =>
    intro n
    cases n with
    | zero => rfl
    | succ n' => simp only [List.replicate_succ, List.getD_cons_succ]; exact ih n'

/-- All `tShift` entries of a constructed block state are zero. -/
theorem mk_tShift : ∀ (A : List Str) (n : Nat), (mkBlockState A).tShift.getD n 0 = 0 := by
  intro A n
  simp only [mkBlockState]
  exact replicate_zero_getD A.length n

/-- Slicing the constructed state at the recorded line marks yields
the original line. -/
theorem mk_line_slice :
    ∀ (A : List Str) (n : Nat) (l : Str), A[n]? = some l →
      jsSlice (mkBlockState A).src ((mkBlockState A).bMarks.getD n 0)
        ((mkBlockState A).eMarks.getD n 0) = l := by
  intro A n l h
  have := jsSlice_join A [] n l h
  simpa [mkBlockState] using this



/-- Unfolding one line of a document suffix. -/
theorem drop_cons_succ :
    ∀ (A : List Str) (k : Nat) (x : Str) (rest : List Str),
      A.drop k = x :: rest → A.drop (k + 1) = rest ∧ A[k]? = some x ∧ k < A.length := by
  intro A k x rest h
  refine ⟨?_, ?_, ?_⟩
  · have h2 : A.drop (k + 1) = (A.drop k).drop 1 := by
      rw [List.drop_drop]
    rw [h2, h]
    rfl
  · have h0 : (A.drop k)[0]? = some x := by rw [h]; simp
    rwa [List.getElem?_drop, Nat.add_zero] at h0
  · by_contra hlt
    have : A.drop k = [] := List.drop_eq_nil_of_le (by omega)
    rw [this] at h
    cases h

/-- The multi-line loop on a document whose remaining lines are a body
(no line of which trims to `$$` or trim-ends with `$$`) followed by a
line trimming to `$$`: it stops at that line and returns the trimmed
join of the accumulated content. -/
theorem blockScanLines_finds :
    ∀ (body : List Str) (A : List Str) (k : Nat) (acc : List Str) (t : Str) (after : List Str),
      A.drop k = body ++ t :: after →
      jsTrim t = dd →
      (∀ l ∈ body, jsTrim l ≠ dd ∧ dd.isSuffixOf (jsTrim l) = false) →
      blockScanLines (mkBlockState A) A.length (A.length - k) k acc =
        some (jsTrim (joinNL (acc ++ body)), k + body.length) := by
  intro body
  induction body with
  | nil =>
    intro A k acc t after hdrop hterm _
    obtain ⟨hd1, hk, hklt⟩ := drop_cons_succ A k t after hdrop
    obtain ⟨f, hf⟩ : ∃ f, A.length - k = f + 1 := ⟨A.length - k - 1, by omega⟩
    rw [hf]
    simp only [blockScanLines]
    rw [if_pos hklt]
    rw [mk_tShift, Nat.add_zero, mk_line_slice A k t hk, hterm]
    rw [if_pos rfl]
    simp
  | cons a body' ih =>
    intro A k acc t after hdrop hterm hbody
    obtain ⟨hd1, hk, hklt⟩ := drop_cons_succ A k a (body' ++ t :: after) hdrop
    obtain ⟨f, hf⟩ : ∃ f, A.length - k = f + 1 := ⟨A.length - k - 1, by omega⟩
    rw [hf]
    simp only [blockScanLines]
    rw [if_pos hklt]
    rw [mk_tShift, Nat.add_zero, mk_line_slice A k a hk]
    rw [if_neg (hbody a (List.mem_cons_self _ _)).1]
    rw [if_neg (show ¬ (dd.isSuffixOf (jsTrim a) = true) from by
      rw [(hbody a (List.mem_cons_self _ _)).2]
      exact Bool.false_ne_true)]
    have hfuel : f = A.length - (k + 1) := by omega
    rw [hfuel]
    rw [ih A (k + 1) (acc ++ [a]) t after hd1 hterm
      (fun l hl => hbody l (List.mem_cons_of_mem _ hl))]
    rw [List.append_assoc]
    simp only [Option.some.injEq, Prod.mk.injEq, List.singleton_append, List.length_cons]
    exact ⟨trivial, by omega⟩

/-- The multi-line loop on a document whose remaining lines contain no
terminator returns nothing. -/
theorem blockScanLines_exhausts :
    ∀ (body : List Str) (A : List Str) (k : Nat) (acc : List Str),
      A.drop k = body →
      (∀ l ∈ body, jsTrim l ≠ dd ∧ dd.isSuffixOf (jsTrim l) = false) →
      blockScanLines (mkBlockState A) A.length (A.length - k) k acc = none := by
  intro body
  induction body with
  | nil =>
    intro A k acc hdrop _
    have hle : A.length ≤ k := by
      by_contra hlt
      have h2 : (A.drop k).length = A.length - k := List.length_drop _ _
      rw [hdrop] at h2
      simp at h2
      omega
    rw [show A.length - k = 0 from by omega]
    rfl
  | cons a body' ih =>
    intro A k acc hdrop hbody
    obtain ⟨hd1, hk, hklt⟩ := drop_cons_succ A k a body' hdrop
    obtain ⟨f, hf⟩ : ∃ f, A.length - k = f + 1 := ⟨A.length - k - 1, by omega⟩
    rw [hf]
    simp only [blockScanLines]
    rw [if_pos hklt]
    rw [mk_tShift, Nat.add_zero, mk_line_slice A k a hk]
    rw [if_neg (hbody a (List.mem_cons_self _ _)).1]
    rw [if_neg (show ¬ (dd.isSuffixOf (jsTrim a) = true) from by
      rw [(hbody a (List.mem_cons_self _ _)).2]
      exact Bool.false_ne_true)]
    have hfuel : f = A.length - (k + 1) := by omega
    rw [hfuel]
    exact ih A (k + 1) (acc ++ [a]) hd1 (fun l hl => hbody l (List.mem_cons_of_mem _ hl))



/-- The search helper never reports a position before its start. -/
theorem findSubAux_ge :
    ∀ (s pat : Str) (k i : Nat), findSubAux pat s k = some i → k ≤ i := by
  intro s
  induction s with
  | nil =>
    intro pat k i h
    simp only [findSubAux] at h
    split at h
    · cases h; exact Nat.le_refl _
    · cases h
  | cons c rest ih =>
    intro pat k i h
    simp only [findSubAux] at h
    split at h
    · cases h; exact Nat.le_refl _
    · have := ih pat (k + 1) i h
      omega

/-- `indexOf` never reports a position before its start index. -/
theorem indexOfFrom_ge :
    ∀ (s pat : Str) (j i : Nat), indexOfFrom s pat j = some i → j ≤ i := by
  intro s pat j i h
  exact findSubAux_ge _ _ _ _ h

/-- An empty slice. -/
theorem jsSlice_self : ∀ (s : Str) (a : Nat), jsSlice s a a = [] := by
  intro s a
  unfold jsSlice
  apply List.drop_eq_nil_of_le
  exact List.length_take_le a s

/-- Unfolding the join of a document with at least two lines. -/
theorem joinNL_cons_ne :
    ∀ (l : Str) (rest : List Str), rest ≠ [] →
      joinNL (l :: rest) = l ++ nlChar :: joinNL rest := by
  intro l rest h
  cases rest with
  | nil => exact absurd rfl h
  | cons a b => rfl

/-- The block marker is a prefix of anything it starts. -/
theorem dd_isPrefixOf_append : ∀ z : Str, dd.isPrefixOf (dd ++ z) = true := by
  intro z
  simp [dd, List.isPrefixOf]

/-- Trimming drops a leading whitespace character. -/
theorem jsTrim_ws_cons :
    ∀ (c : Char) (s : Str), isWS c = true → jsTrim (c :: s) = jsTrim s := by
  intro c s h
  simp [jsTrim, List.dropWhile_cons, h]

/-- A leading empty line disappears in the trimmed join. -/
theorem trim_join_nil_cons :
    ∀ body : List Str, jsTrim (joinNL ([] :: body)) = jsTrim (joinNL body) := by
  intro body
  cases body with
  | nil => rfl
  | cons b r =>
    rw [joinNL_cons_ne [] (b :: r) (by simp)]
    show jsTrim (nlChar :: joinNL (b :: r)) = _
    exact jsTrim_ws_cons nlChar _ (by decide)





/-- The committing block rule on a document whose first line is exactly
`$$`, whose body lines neither trim to `$$` nor trim-end with `$$`, and
which ends with a line trimming to `$$`: it emits one block token whose
content is the trimmed newline-join of the body lines and consumes the
whole document. -/
theorem block_success :
    ∀ (body : List Str) (t : Str),
      jsTrim t = dd →
      (∀ l ∈ body, jsTrim l ≠ dd ∧ dd.isSuffixOf (jsTrim l) = false) →
      gladstBlockRule (mkBlockState (dd :: (body ++ [t]))) 0 (body.length + 2) false =
        (true, { mkBlockState (dd :: (body ++ [t])) with
                 tokens := [{ ttype := blockType, content := jsTrim (joinNL body),
                              markup := dd, blockB := true,
                              tmap := some (0, body.length + 2) }],
                 line := body.length + 2 }) := by
  intro body t hterm hbody
  have hAlen : (dd :: (body ++ [t])).length = body.length + 2 := by
    simp
  have hb0 : (mkBlockState (dd :: (body ++ [t]))).bMarks.getD 0 0 = 0 := by
    simp [mkBlockState, lineOffsets]
  have he0 : (mkBlockState (dd :: (body ++ [t]))).eMarks.getD 0 0 = 2 := by
    simp [mkBlockState, lineOffsets, dd]
  have hsrc : (mkBlockState (dd :: (body ++ [t]))).src =
      dd ++ nlChar :: joinNL (body ++ [t]) := by
    show joinNL (dd :: (body ++ [t])) = _
    exact joinNL_cons_ne dd (body ++ [t]) (by simp)
  have hpre : dd.isPrefixOf ((mkBlockState (dd :: (body ++ [t]))).src.drop 0) = true := by
    rw [List.drop_zero, hsrc]
    exact dd_isPrefixOf_append _
  simp only [gladstBlockRule]
  rw [mk_tShift, Nat.add_zero, hb0, he0]
  rw [if_neg (not_not_intro hpre)]
  simp only [Nat.zero_add]
  have hscan : blockScanLines (mkBlockState (dd :: (body ++ [t]))) (body.length + 2)
      (body.length + 2 - 1) 1 [jsTrim ([] : Str)] =
      some (jsTrim (joinNL ([] :: body)), 1 + body.length) := by
    have hd : (dd :: (body ++ [t])).drop 1 = body ++ t :: [] := rfl
    have h2 := blockScanLines_finds body (dd :: (body ++ [t])) 1
      [jsTrim ([] : Str)] t [] hd hterm hbody
    rw [hAlen] at h2
    exact h2
  rcases hidx : indexOfFrom (mkBlockState (dd :: (body ++ [t]))).src dd 2 with _ | i
  · dsimp only
    rw [jsSlice_self, hscan]
    dsimp only
    rw [if_neg (show ¬ (false = true) from by decide)]
    rw [trim_join_nil_cons]
    rw [show 1 + body.length + 1 = body.length + 2 from by omega]
    rfl
  · have hge : 2 ≤ i := indexOfFrom_ge _ _ _ _ hidx
    dsimp only
    rw [if_neg (show ¬ ((i : Int) ≤ ((2 : Nat) : Int) - 2) from by omega)]
    rw [jsSlice_self, hscan]
    dsimp only
    rw [if_neg (show ¬ (false = true) from by decide)]
    rw [trim_join_nil_cons]
    rw [show 1 + body.length + 1 = body.length + 2 from by omega]
    rfl



/-- The committing block rule on a `$$`-opened document with no
terminating line declines and leaves the state untouched. -/
theorem block_no_terminator :
    ∀ body : List Str,
      (∀ l ∈ body, jsTrim l ≠ dd ∧ dd.isSuffixOf (jsTrim l) = false) →
      gladstBlockRule (mkBlockState (dd :: body)) 0 (body.length + 1) false =
        (false, mkBlockState (dd :: body)) := by
  intro body hbody
  have hAlen : (dd :: body).length = body.length + 1 := by simp
  have hb0 : (mkBlockState (dd :: body)).bMarks.getD 0 0 = 0 := by
    simp [mkBlockState, lineOffsets]
  have he0 : (mkBlockState (dd :: body)).eMarks.getD 0 0 = 2 := by
    simp [mkBlockState, lineOffsets, dd]
  have hpre : dd.isPrefixOf ((mkBlockState (dd :: body)).src.drop 0) = true := by
    rw [List.drop_zero]
    cases body with
    | nil => decide
    | cons b r =>
      show dd.isPrefixOf (joinNL (dd :: b :: r)) = true
      rw [joinNL_cons_ne dd (b :: r) (by simp)]
      exact dd_isPrefixOf_append _
  simp only [gladstBlockRule]
  rw [mk_tShift, Nat.add_zero, hb0, he0]
  rw [if_neg (not_not_intro hpre)]
  simp only [Nat.zero_add]
  have hscan : blockScanLines (mkBlockState (dd :: body)) (body.length + 1)
      (body.length + 1 - 1) 1 [jsTrim ([] : Str)] = none := by
    have hd : (dd :: body).drop 1 = body := rfl
    have h2 := blockScanLines_exhausts body (dd :: body) 1 [jsTrim ([] : Str)] hd hbody
    rw [hAlen] at h2
    exact h2
  rcases hidx : indexOfFrom (mkBlockState (dd :: body)).src dd 2 with _ | i
  · dsimp only
    rw [jsSlice_self, hscan]
  · have hge : 2 ≤ i := indexOfFrom_ge _ _ _ _ hidx
    dsimp only
    rw [if_neg (show ¬ ((i : Int) ≤ ((2 : Nat) : Int) - 2) from by omega)]
    rw [jsSlice_self, hscan]

/-- C6 counterexample: the document `$$ / a$$ / b / $$` has a later
line that is exactly `$$`, yet the rule emits content `a` (the line
`a$$` terminates the block early via the ends-with rule), not the
trimmed join `a$$\nb` of the intervening lines the claim predicts. -/
theorem C6_counterexample_endswith_terminator :
    (gladstBlockRule
        (mkBlockState [("$$").toList, ("a$$").toList, ("b").toList, ("$$").toList])
        0 4 false).2.tokens =
      [{ ttype := blockType, content := ['a'], markup := dd, blockB := true,
         tmap := some (0, 2) }] ∧
    (['a'] : Str) ≠ jsTrim (joinNL [("a$$").toList, ("b").toList]) := by
  refine ⟨by decide, by decide⟩

/-- C6 (amended): restricted to documents whose first line is exactly
`$$` and whose intervening lines neither trim to `$$` nor trim-end with
`$$` (either would terminate the block earlier), the block rule emits a
region whose content is the trimmed newline-join of the intervening raw
lines; and with no terminating line (neither kind) it returns no match
and emits nothing. -/
theorem C6_amended_block_contract :
    (∀ (body : List Str) (t : Str),
        jsTrim t = dd →
        (∀ l ∈ body, jsTrim l ≠ dd ∧ dd.isSuffixOf (jsTrim l) = false) →
        gladstBlockRule (mkBlockState (dd :: (body ++ [t]))) 0 (body.length + 2) false =
          (true, { mkBlockState (dd :: (body ++ [t])) with
                   tokens := [{ ttype := blockType, content := jsTrim (joinNL body),
                                markup := dd, blockB := true,
                                tmap := some (0, body.length + 2) }],
                   line := body.length + 2 })) ∧
    (∀ body : List Str,
        (∀ l ∈ body, jsTrim l ≠ dd ∧ dd.isSuffixOf (jsTrim l) = false) →
        gladstBlockRule (mkBlockState (dd :: body)) 0 (body.length + 1) false =
          (false, mkBlockState (dd :: body))) :=
  ⟨block_success, block_no_terminator⟩

/-- C6 witness: the success half of the amended theorem applied to the
document `$$ / E = mc^2 / $$`. -/
theorem C6_amended_witness :
    (jsTrim dd = dd ∧
      (∀ l ∈ [("E = mc^2").toList], jsTrim l ≠ dd ∧ dd.isSuffixOf (jsTrim l) = false)) ∧
    gladstBlockRule (mkBlockState (dd :: ([("E = mc^2").toList] ++ [dd]))) 0 3 false =
      (true, { mkBlockState (dd :: ([("E = mc^2").toList] ++ [dd])) with
               tokens := [{ ttype := blockType,
                            content := jsTrim (joinNL [("E = mc^2").toList]),
                            markup := dd, blockB := true, tmap := some (0, 3) }],
               line := 3 }) :=
  ⟨⟨by decide, by decide⟩,
    C6_amended_block_contract.1 [("E = mc^2").toList] dd (by decide) (by decide)⟩

end Gladst
